import Mathlib

/-!
Verification development for the shopping-list price-estimation engine of
the fitness-api repository (`src/routes/shoppingLists.js`).

The JavaScript route module is embedded shallowly:

* JS numbers (currency amounts, quantities, percentages) are modelled as
  exact rationals `ℚ`; missing numeric fields are `0` and missing strings
  are `""`, matching the JS coercions `Number(x || 0)` / `String(x || '')`.
* Dates are integer epoch milliseconds; a missing date is `none`.
* `Number(x).toFixed(2)` on the non-negative values produced by the
  estimator is modelled by `round2` (round half up to 2 decimals).
* A JS `Map` in insertion order is modelled as an association list.
* Mongoose queries/saves are modelled by explicit passing of the stored
  list collection (`List ListDoc`), and each fastify handler becomes a
  pure function from the store and the authenticated user id to a result
  (`Except RouteErr …`) plus the updated store where it writes.
-/

namespace FitnessApi

/-- Price-estimation strategy: `'last' | 'avg' | 'median'`. -/
inductive Strategy where
  | last
  | avg
  | median
deriving DecidableEq

/-- An embedded shopping-list item (`itemSchema` in
`src/models/shoppingList.js`).  `category`/`store`/`notes` use `""` for
the JS-falsy absent value; `createdAt`/`updatedAt` are subdocument
timestamps in epoch milliseconds. -/
structure Item where
  name : String := ""
  qty : ℚ := 0
  unit : String := ""
  category : String := ""
  plannedPrice : ℚ := 0
  purchasedPrice : ℚ := 0
  purchased : Bool := false
  store : String := ""
  notes : String := ""
  createdAt : Option Int := none
  updatedAt : Option Int := none
deriving DecidableEq

/-- Budget alert thresholds (`alertsSchema`); the route reads them with
`list.alerts?.warnPct ?? 0.8` and `list.alerts?.errorPct ?? 1.0`, so the
fields are kept optional here. -/
structure Alerts where
  warnPct : Option ℚ := none
  errorPct : Option ℚ := none
  notify : Bool := true
deriving DecidableEq

/-- A stored shopping list (`shoppingListSchema`), owned by exactly one
user.  `updatedAt` is always present on a stored document. -/
structure ListDoc where
  id : String
  user : String
  name : String := ""
  year : Int := 0
  month : Int := 0
  budget : ℚ := 0
  alerts : Alerts := {}
  items : List Item := []
  updatedAt : Int := 0
deriving DecidableEq

/-- JS string truthiness: a string is truthy iff it is nonempty. -/
def truthyStr (s : String) : Bool :=
  !(s == "")

/-- Model of `String.prototype.toLowerCase` for the ASCII unit/name/store
strings this module lower-cases (structural, so that concrete instances
evaluate). -/
def jsToLower (s : String) : String :=
  ⟨s.data.map Char.toLower⟩

/-- Whitespace test used by `jsTrim`. -/
def isWS (c : Char) : Bool :=
  c == ' ' || c == '\t' || c == '\n' || c == '\r'

/-- Model of `String.prototype.trim`: drop whitespace from both ends. -/
def jsTrim (s : String) : String :=
  ⟨((s.data.dropWhile isWS).reverse.dropWhile isWS).reverse⟩

/-- Does the pattern occur as an initial segment of the character list? -/
def charsLeadWith : List Char → List Char → Bool
  | _, [] => true
  | [], _ :: _ => false
  | c :: cs, d :: ds => c == d && charsLeadWith cs ds

/-- Does the pattern occur anywhere in the character list? -/
def charsHave : List Char → List Char → Bool
  | [], k => k.isEmpty
  | c :: cs, k => charsLeadWith (c :: cs) k || charsHave cs k

/-- Model of JS `s.includes(k)`. -/
def jsIncludes (s k : String) : Bool :=
  charsHave s.data k.data

/-- Truthiness of a string-or-null/undefined value (`none` and `some ""`
are both falsy). -/
def truthyOpt (o : Option String) : Bool :=
  match o with
  | some s => truthyStr s
  | none => false

/-- Unit canonicalization, `mapUnit` (shoppingLists.js lines 13-27):
lower-cases and trims the raw unit and maps known synonyms to a canonical
short form; an unknown nonempty unit maps to itself and an empty one to
`"un"`.  There is no conversion factor anywhere in this module. -/
def mapUnit (u : String) : String :=
  let u0 := jsToLower (jsTrim u)
  if ["g", "gram", "grams"].contains u0 then "g"
  else if ["kg", "kilogram", "kilograms"].contains u0 then "kg"
  else if ["ml", "milliliter", "milliliters"].contains u0 then "ml"
  else if ["l", "liter", "liters"].contains u0 then "l"
  else if ["tbsp", "tablespoon"].contains u0 then "colher"
  else if ["tsp", "teaspoon"].contains u0 then "colher chá"
  else if ["cup", "cups"].contains u0 then "xícara"
  else if ["slice", "slices"].contains u0 then "fatia"
  else if ["pinch", "pinches"].contains u0 then "pitada"
  else if ["clove", "cloves"].contains u0 then "dente"
  else if ["piece", "pieces", "unidade", "unidades", "uni", "un"].contains u0 then "un"
  else if u0 == "" then "un"
  else u0

/-- History-group key, `keyOf` (lines 28-29): lowercased trimmed name
joined with the canonical unit returned by `mapUnit`. -/
def keyOf (name unit : String) : String :=
  jsToLower (jsTrim name) ++ "::" ++ mapUnit unit

/-- The fixed keyword table of `autoCategory` (lines 31-47). -/
def categoryTable : List (String × List String) :=
  [("proteinas", ["frango", "carne", "bife", "peru", "atum", "salmão", "ovos", "ovo"]),
   ("frutas", ["banana", "maça", "maçã", "laranja", "abacate", "morango", "uva", "kiwi"]),
   ("vegetais", ["alface", "tomate", "cenoura", "brócolis", "couve", "pepino", "cebola", "alho"]),
   ("graos", ["arroz", "feijao", "feijão", "aveia", "massa", "macarrão", "pão", "trigo"]),
   ("laticinios", ["leite", "queijo", "iogurte", "manteiga", "requeijão"]),
   ("bebidas", ["água", "agua", "refrigerante", "sumo", "suco", "café", "cha", "chá"]),
   ("higiene", ["sabão", "sabonete", "shampoo", "pasta de dente", "creme dental",
                "papel higiénico", "papel higienico"]),
   ("limpeza", ["detergente", "amaciante", "desinfetante", "limpa", "alvejante",
                "água sanitária"])]

/-- Keyword classifier `autoCategory` (lines 31-47): first category whose
keyword list has a substring match on the lowercased name wins, default
`"outros"`. -/
def autoCategory (name : String) : String :=
  let s := jsToLower name
  match categoryTable.find? (fun g => g.2.any (fun k => jsIncludes s k)) with
  | some g => g.1
  | none => "outros"

/-- `sum(items, field)` (lines 49-51): left fold of `acc + Number(it[field] || 0)`. -/
def sumBy (items : List Item) (f : Item → ℚ) : ℚ :=
  items.foldl (fun acc it => acc + f it) 0

/-- Rounding of `Number(x.toFixed(2))` for the non-negative amounts this
module rounds: half-up rounding to 2 decimal places, on exact rationals. -/
def round2 (x : ℚ) : ℚ :=
  ((⌊x * 100 + 1 / 2⌋ : ℤ) : ℚ) / 100

/-- A derived purchase-history record (the object pushed at lines
110-115): `unitPrice` is `price / qty` when `qty > 0` and null
otherwise (there is no base-unit conversion). -/
structure HistoryRec where
  name : String
  unit : String
  qty : ℚ
  price : ℚ
  unitPrice : Option ℚ
  store : Option String
  date : Int
  category : Option String
deriving DecidableEq

/-- In-construction history group: pushed records plus the per-category
frequency count map, both in insertion order. -/
structure GroupAccum where
  records : List HistoryRec := []
  catCount : List (String × Nat) := []
deriving DecidableEq

/-- Finished history group: records sorted by date descending and the
most frequent category. -/
structure Group where
  records : List HistoryRec
  categoryMode : Option String
deriving DecidableEq

/-- Effective transaction date of an item (line 94):
`it.updatedAt || it.createdAt || l.updatedAt` (Date objects are always
truthy, so this is first-present; the final `new Date()` fallback is
unreachable because a stored list always has `updatedAt`). -/
def effectiveDate (l : ListDoc) (it : Item) : Int :=
  ((it.updatedAt.orElse fun _ => it.createdAt).getD l.updatedAt)

/-- Recency filter (line 95): skip when a `since` cutoff is present and
the effective date is strictly older. -/
def sinceHit (since : Option Int) (date : Int) : Bool :=
  match since with
  | some s => decide (date < s)
  | none => false

/-- Store filter (lines 97-98): skip only when the filter store is
truthy, the item store is truthy, and they differ case-insensitively. -/
def storeHit (store : Option String) (recStore : String) : Bool :=
  match store with
  | some st => truthyStr st && truthyStr recStore && !(jsToLower recStore == jsToLower st)
  | none => false

/-- One iteration of the item loop of `aggregateUserHistory` (lines
87-121): returns the `(key, record)` pushed for this item, or `none`
when one of the `continue` guards fires.  The guards, in source order:
not purchased; empty trimmed name; recency filter; store filter;
non-positive purchased price. -/
def scanItem (store : Option String) (since : Option Int) (l : ListDoc) (it : Item) :
    Option (String × HistoryRec) :=
  if !it.purchased then none
  else
    let name := jsTrim it.name
    let unit := mapUnit it.unit
    if name == "" then none
    else
      let date := effectiveDate l it
      if sinceHit since date then none
      else if storeHit store it.store then none
      else
        let qty := it.qty
        let price := it.purchasedPrice
        if price ≤ 0 then none
        else
          let unitPrice : Option ℚ := if 0 < qty then some (price / qty) else none
          some (keyOf name unit,
            { name := name
              unit := unit
              qty := qty
              price := price
              unitPrice := unitPrice
              store := if it.store == "" then none else some it.store
              date := date
              category := if it.category == "" then none else some it.category })

/-- Increment of the category frequency count
(`entry.catCount.set(k, (entry.catCount.get(k) || 0) + 1)`, lines 117-120). -/
def bumpCat (c : List (String × Nat)) (k : String) : List (String × Nat) :=
  if (c.find? (fun p => p.1 == k)).isSome then
    c.map (fun p => if p.1 == k then (p.1, p.2 + 1) else p)
  else c ++ [(k, 1)]

/-- Push of a scanned record into the JS `Map` (lines 106-120),
get-or-create on the group key; `cat` is the item's raw category string
(counted only when truthy). -/
def pushRecord (m : List (String × GroupAccum)) (key : String) (r : HistoryRec)
    (cat : String) : List (String × GroupAccum) :=
  let upd : GroupAccum → GroupAccum := fun e =>
    { records := e.records ++ [r]
      catCount := if truthyStr cat then bumpCat e.catCount (jsToLower cat) else e.catCount }
  if (m.find? (fun p => p.1 == key)).isSome then
    m.map (fun p => if p.1 == key then (p.1, upd p.2) else p)
  else m ++ [(key, upd {})]

/-- The `bestCat`/`bestCnt` fold of lines 127-131: first entry with a
strictly greater count wins; `bestCat || null` collapses an empty best
key to null. -/
def bestCategory (counts : List (String × Nat)) : Option String :=
  let best := counts.foldl (fun acc p =>
    match acc with
    | none => some p
    | some q => if p.2 > q.2 then some p else some q) none
  match best with
  | some p => if p.1 == "" then none else some p.1
  | none => none

/-- Group finalization (lines 125-132): records sorted by date
descending (stable, as `Array.prototype.sort`), most frequent category. -/
def finalizeGroup (e : GroupAccum) : Group :=
  { records := List.insertionSort (fun a b => b.date ≤ a.date) e.records
    categoryMode := bestCategory e.catCount }

/-- `aggregateUserHistory(userId, { store, days })` (lines 76-134) as a
pure function of the stored collection and the current time.  The
initial query keeps the user's lists containing at least one purchased
item; `since` is `now - days·86400000` when `days` is truthy. -/
def aggregateUserHistory (db : List ListDoc) (userId : String) (store : Option String)
    (days : Option Int) (now : Int) : List (String × Group) :=
  let lists := db.filter (fun l => l.user == userId && l.items.any (·.purchased))
  let since : Option Int :=
    match days with
    | some d => if d = 0 then none else some (now - d * 86400000)
    | none => none
  let accum := lists.foldl (fun m l =>
    l.items.foldl (fun m it =>
      match scanItem store since l it with
      | some (key, r) => pushRecord m key r it.category
      | none => m) m) []
  accum.map (fun p => (p.1, finalizeGroup p.2))

/-- `hist.get(key)` on the aggregation result. -/
def histGet (hist : List (String × Group)) (key : String) : Option Group :=
  (hist.find? (fun p => p.1 == key)).map (·.2)

/-- The `valid` record filter of `suggestPrice` (line 137):
`r.unitPrice && isFinite(r.unitPrice) && r.unitPrice > 0` (a null or
non-positive unit price is rejected; every rational is finite). -/
def validOf (records : List HistoryRec) : List HistoryRec :=
  records.filter (fun r =>
    match r.unitPrice with
    | some up => decide (0 < up)
    | none => false)

/-- `suggestPrice(records, qtyWanted, strategy)` (lines 136-161).
`records` arrive sorted most-recent-first.  With no valid per-unit
price the fallback uses the most recent record's full price, scaled by
`qtyWanted / (fallback.qty || 1)` when `qtyWanted > 0`; otherwise the
chosen per-unit price times `(qtyWanted || 1)` is rounded to 2
decimals.  The JS default argument makes `median` the strategy when
none is given. -/
def suggestPrice (records : List HistoryRec) (qtyWanted : ℚ)
    (strategy : Strategy := .median) : ℚ :=
  match validOf records with
  | [] =>
      let lastPrice := match records.head? with | some f => f.price | none => 0
      if qtyWanted ≤ 0 then lastPrice
      else if 0 < lastPrice then
        let fq := match records.head? with
          | some f => if f.qty = 0 then 1 else f.qty
          | none => 1
        lastPrice * (qtyWanted / fq)
      else 0
  | v0 :: rest =>
      let valid := v0 :: rest
      let q1 := if qtyWanted = 0 then 1 else qtyWanted
      match strategy with
      | .last => round2 (v0.unitPrice.getD 0 * q1)
      | .avg =>
          let a := (valid.map (fun r => r.unitPrice.getD 0)).sum / (valid.length : ℚ)
          round2 (a * q1)
      | .median =>
          let arr := List.insertionSort (· ≤ ·) (valid.map (fun r => r.unitPrice.getD 0))
          let mid := arr.length / 2
          let med := if arr.length % 2 = 1 then arr.getD mid 0
                     else (arr.getD (mid - 1) 0 + arr.getD mid 0) / 2
          round2 (med * q1)

/-- The representative per-unit price `suggestPrice` multiplies by the
wanted quantity when at least one valid record exists (`0` otherwise):
most recent for `last`, arithmetic mean for `avg`, middle value (or the
mean of the two middle values) of the ascending sort for `median`. -/
def repPrice (records : List HistoryRec) (strategy : Strategy) : ℚ :=
  match validOf records with
  | [] => 0
  | v0 :: rest =>
      let valid := v0 :: rest
      match strategy with
      | .last => v0.unitPrice.getD 0
      | .avg => (valid.map (fun r => r.unitPrice.getD 0)).sum / (valid.length : ℚ)
      | .median =>
          let arr := List.insertionSort (· ≤ ·) (valid.map (fun r => r.unitPrice.getD 0))
          let mid := arr.length / 2
          if arr.length % 2 = 1 then arr.getD mid 0
          else (arr.getD (mid - 1) 0 + arr.getD mid 0) / 2

/-- Route-level error results.  `badRequest` carries the payload of the
meal-plan abort (message plus the unresolved ingredients);
`internalError` is an uncaught exception surfacing as a 500 response. -/
structure UnknownIng where
  name : String
  unit : String
  qty : ℚ
deriving DecidableEq

inductive RouteErr where
  | notFound
  | badRequest (message : String) (unknown : List UnknownIng)
  | internalError
deriving DecidableEq

deriving instance DecidableEq for Except

/-- `ShoppingList.findOne({ _id: id, user })`: the list is visible only
when both the id and the owner match. -/
def findOne (db : List ListDoc) (id user : String) : Option ListDoc :=
  db.find? (fun l => l.id == id && l.user == user)

/-- `list.save()`: replace the stored document with the mutated one. -/
def saveList (db : List ListDoc) (l : ListDoc) : List ListDoc :=
  db.map (fun x => if x.id == l.id then l else x)

/-- Body of the per-item loop of `POST /shopping-lists/:id/estimate-prices`
(lines 624-640): skip when `onlyMissing` and `plannedPrice > 0`; skip
when the item's group is absent or empty; otherwise write
`plannedPrice := suggestPrice(records, qty || 1, strategy)` and fill a
missing category from the group's `categoryMode`. -/
def backfillItem (hist : List (String × Group)) (strategy : Strategy)
    (onlyMissing : Bool) (it : Item) : Item :=
  if onlyMissing && decide (0 < it.plannedPrice) then it
  else
    match histGet hist (keyOf it.name it.unit) with
    | none => it
    | some h =>
        if h.records.isEmpty then it
        else
          let qtyWanted := if it.qty = 0 then 1 else it.qty
          let price := suggestPrice h.records qtyWanted strategy
          let it1 := { it with plannedPrice := price }
          if it.category == "" && truthyOpt h.categoryMode then
            { it1 with category := h.categoryMode.getD "" }
          else it1

/-- The whole item loop of the backfill route. -/
def backfillItems (hist : List (String × Group)) (strategy : Strategy)
    (onlyMissing : Bool) (items : List Item) : List Item :=
  items.map (backfillItem hist strategy onlyMissing)

/-- Parsed request options of the backfill route (`estimateReqZ` with
its defaults applied at the destructuring of line 617). -/
structure EstimateOpts where
  strategy : Strategy := .median
  store : Option String := none
  days : Option Int := none
  onlyMissing : Bool := true
deriving DecidableEq

/-- `POST /shopping-lists/:id/estimate-prices` (lines 606-645) as a pure
function: returns the stored collection after the request and the
response.  A list that does not exist or is owned by another user
answers `notFound` (line 620). -/
def estimatePricesRoute (db : List ListDoc) (uid id : String) (opts : EstimateOpts)
    (now : Int) : List ListDoc × Except RouteErr ListDoc :=
  match findOne db id uid with
  | none => (db, .error .notFound)
  | some l =>
      let hist := aggregateUserHistory db uid opts.store opts.days now
      let l2 := { l with items := backfillItems hist opts.strategy opts.onlyMissing l.items }
      (saveList db l2, .ok l2)

inductive BudgetStatus where
  | ok
  | warn
  | over
deriving DecidableEq

/-- Response of `GET /shopping-lists/:id/summary`; `byCategory` pairs a
category with its `(planned, spent)` totals. -/
structure SummaryResp where
  listId : String
  planned : ℚ
  spent : ℚ
  budget : ℚ
  remaining : ℚ
  status : BudgetStatus
  byCategory : List (String × ℚ × ℚ)
deriving DecidableEq

/-- The `byCatMap` fold of lines 588-596. -/
def byCategoryOf (items : List Item) : List (String × ℚ × ℚ) :=
  items.foldl (fun m it =>
    let cat := if it.category == "" then "outros" else it.category
    let addP := it.plannedPrice
    let addS := if it.purchased then it.purchasedPrice else 0
    if (m.find? (fun p => p.1 == cat)).isSome then
      m.map (fun p => if p.1 == cat then (p.1, p.2.1 + addP, p.2.2 + addS) else p)
    else m ++ [(cat, addP, addS)]) []

/-- Computation of the budget summary for a found list (lines 577-602).
The overspend push notification is fire-and-forget and carries no data
back into the response, so it is not modelled. -/
def summaryOf (l : ListDoc) : SummaryResp :=
  let planned := sumBy l.items (·.plannedPrice)
  let spent := sumBy (l.items.filter (·.purchased)) (·.purchasedPrice)
  let budget := l.budget
  let remaining := max 0 (budget - spent)
  let warn := (l.alerts.warnPct.getD (8 / 10)) * budget
  let errL := (l.alerts.errorPct.getD 1) * budget
  let status :=
    if 0 < budget ∧ errL ≤ spent then BudgetStatus.over
    else if 0 < budget ∧ warn ≤ spent then BudgetStatus.warn
    else BudgetStatus.ok
  { listId := l.id
    planned := planned
    spent := spent
    budget := budget
    remaining := remaining
    status := status
    byCategory := byCategoryOf l.items }

/-- `GET /shopping-lists/:id/summary` (lines 567-603).  When the list is
absent or foreign, line 576 evaluates `request.reply.notFound(…)`; a
fastify request object has no `reply` property, so this dereference of
`undefined` throws a `TypeError` that surfaces as a 500 internal error
instead of the 404 every sibling route produces with `reply.notFound`. -/
def summaryRoute (db : List ListDoc) (uid id : String) : Except RouteErr SummaryResp :=
  match findOne db id uid with
  | none => .error .internalError
  | some l => .ok (summaryOf l)

/-- One requested meal-plan ingredient (`plan.items[i]`, validated by
`mealPlanReqZ`: name nonempty, qty non-negative). -/
structure PlanItem where
  name : String
  qty : ℚ
  unit : String := ""
  notes : String := ""
deriving DecidableEq

/-- Parsed request of `POST /shopping-lists/from-mealplan`
(`mealPlanReqZ` with the defaults applied at line 658). -/
structure MealPlanReq where
  name : String := ""
  year : Option Int := none
  month : Option Int := none
  budget : ℚ := 0
  allowUnknown : Bool := false
  strategy : Strategy := .median
  store : Option String := none
  days : Option Int := none
  plan : List PlanItem
deriving DecidableEq

/-- The `!h || !h.records.length` guard of the meal-plan loop (line
680): the ingredient's history group (under the key of its trimmed
name and canonical unit) is absent or holds no records. -/
def noHistory (hist : List (String × Group)) (i : PlanItem) : Bool :=
  match histGet hist (keyOf (jsTrim i.name) (mapUnit i.unit)) with
  | none => true
  | some h => h.records.isEmpty

/-- The ingredients of a plan that have no history group. -/
def unresolved (hist : List (String × Group)) (plan : List PlanItem) : List PlanItem :=
  plan.filter (noHistory hist)

/-- The per-ingredient loop of the meal-plan route (lines 672-712),
processed front to back: an ingredient whose history group is missing
or empty goes to the `unknown` list when `allowUnknown` is false and
becomes a zero-priced auto-classified item when it is true; otherwise
an item is built with the estimated price and the group's most frequent
category (falling back to the keyword classifier). -/
def synthesize (hist : List (String × Group)) (allowUnknown : Bool)
    (strategy : Strategy) (store : Option String) :
    List PlanItem → List Item × List UnknownIng
  | [] => ([], [])
  | inItem :: restPlan =>
      let tail := synthesize hist allowUnknown strategy store restPlan
      let nm := jsTrim inItem.name
      let unit := mapUnit inItem.unit
      let qty := inItem.qty
      if noHistory hist inItem then
        if !allowUnknown then
          (tail.1, ⟨nm, unit, qty⟩ :: tail.2)
        else
          ({ name := nm, qty := qty, unit := unit, category := autoCategory nm,
             plannedPrice := 0, purchasedPrice := 0, purchased := false,
             store := "", notes := inItem.notes } :: tail.1, tail.2)
      else
        let h := (histGet hist (keyOf nm unit)).getD ⟨[], none⟩
        let price := suggestPrice h.records qty strategy
        ({ name := nm, qty := qty, unit := unit,
           category := match h.categoryMode with
             | some c => if c == "" then autoCategory nm else c
             | none => autoCategory nm,
           plannedPrice := price, purchasedPrice := 0, purchased := false,
           store := store.getD "", notes := inItem.notes } :: tail.1, tail.2)

/-- `String(m).padStart(2, '0')` for the default list name. -/
def pad2 (n : Int) : String :=
  let s := toString n
  if s.length < 2 then "0" ++ s else s

/-- `POST /shopping-lists/from-mealplan` (lines 648-733) as a pure
function of the stored collection: on unresolved ingredients (with
`allowUnknown` false) it answers `badRequest` with the exact `unknown`
list and leaves the store unchanged; otherwise it persists one new list
whose items come from `synthesize`.  `newId` stands for the id the
store generates; `nowYear`/`nowMonth` are the current UTC year/month. -/
def fromMealPlanRoute (db : List ListDoc) (uid : String) (req : MealPlanReq)
    (now : Int) (newId : String) (nowYear nowMonth : Int) :
    List ListDoc × Except RouteErr ListDoc :=
  let y := req.year.getD nowYear
  let m := req.month.getD nowMonth
  let listName := if req.name == "" then "Meal Plan " ++ pad2 m ++ "/" ++ toString y
                  else req.name
  let hist := aggregateUserHistory db uid req.store req.days now
  let r := synthesize hist req.allowUnknown req.strategy req.store req.plan
  if !r.2.isEmpty then
    (db, .error (.badRequest
      "Alguns itens do meal plan não existem no seu histórico de compras." r.2))
  else
    let created : ListDoc :=
      { id := newId, user := uid, name := listName, year := y, month := m,
        budget := req.budget, alerts := {}, items := r.1, updatedAt := now }
    (db ++ [created], .ok created)

/-- Parsed body of `PATCH /shopping-lists/:id/items/:itemId`
(`itemPatchZ`: every field optional). -/
structure ItemPatch where
  name : Option String := none
  qty : Option ℚ := none
  unit : Option String := none
  category : Option String := none
  plannedPrice : Option ℚ := none
  purchasedPrice : Option ℚ := none
  purchased : Option Bool := none
  store : Option String := none
  notes : Option String := none
deriving DecidableEq

/-- The item mutation of the patch route (lines 504-506):
`Object.assign(item, parsed.data)` copies every supplied field, then a
supplied truthy `name` without a supplied truthy `category` re-runs the
keyword classifier over the new name, and a supplied truthy `unit` is
canonicalized. -/
def applyPatch (it : Item) (p : ItemPatch) : Item :=
  let it1 : Item :=
    { it with
      name := p.name.getD it.name
      qty := p.qty.getD it.qty
      unit := p.unit.getD it.unit
      category := p.category.getD it.category
      plannedPrice := p.plannedPrice.getD it.plannedPrice
      purchasedPrice := p.purchasedPrice.getD it.purchasedPrice
      purchased := p.purchased.getD it.purchased
      store := p.store.getD it.store
      notes := p.notes.getD it.notes }
  let it2 := if truthyOpt p.name && !truthyOpt p.category then
               { it1 with category := autoCategory (p.name.getD "") }
             else it1
  if truthyOpt p.unit then { it2 with unit := mapUnit (p.unit.getD "") } else it2

/-! ## Helper lemmas -/

/-- Appending to a fixed string on the left is injective. -/
theorem string_append_cancel {a s t : String} (h : a ++ s = a ++ t) : s = t := by
  have hd : (a ++ s).data = (a ++ t).data := congrArg String.data h
  simp only [String.data_append] at hd
  exact String.ext (List.append_cancel_left hd)

/-! ## Claim theorems -/

/-- A purchased item: 2 kg of rice for 10, as stored by the model. -/
def demoKgItem : Item :=
  { name := " Rice ", qty := 2, unit := "KG", purchasedPrice := 10, purchased := true }

/-- A stored list of user alice holding `demoKgItem`. -/
def demoKgList : ListDoc :=
  { id := "L1", user := "alice", items := [demoKgItem], updatedAt := 50 }

/-- C1 (counterexample): the claim says a purchase of the same
normalized name recorded in grams and one recorded in kilograms fall in
the same history group.  They do not: the implemented group key joins
the name with the canonical unit, and `g` and `kg` are different
canonical units, so the two keys differ. -/
theorem keyOf_g_kg_distinct : keyOf "Rice" "g" ≠ keyOf "Rice" "kg" := by
  with_unfolding_all decide

/-- C1 (amended): the group key is the lowercased trimmed name joined
with the canonical unit of `mapUnit` (not with a weight/volume/other
conversion group), so two purchases of the same name share a group key
exactly when their units canonicalize to the same unit: spelling
variants (grams/g; pieces/un) share a group, while grams vs kilograms
and weight vs count-like units are distinct groups. -/
theorem keyOf_groups_by_canonical_unit :
    (∀ name u1 u2, keyOf name u1 = keyOf name u2 ↔ mapUnit u1 = mapUnit u2)
    ∧ keyOf "Rice" "grams" = keyOf " rice" "g"
    ∧ keyOf "Milk" "pieces" = keyOf "milk" "un"
    ∧ keyOf "Rice" "g" ≠ keyOf "Rice" "kg"
    ∧ keyOf "Rice" "kg" ≠ keyOf "Rice" "un" := by
  refine ⟨fun name u1 u2 => ?_, ?_, ?_, ?_, ?_⟩
  · constructor
    · intro h
      exact string_append_cancel (h : _ ++ _ = _ ++ _)
    · intro h
      unfold keyOf
      rw [h]
  · with_unfolding_all decide
  · with_unfolding_all decide
  · with_unfolding_all decide
  · with_unfolding_all decide

/-- C2 (counterexample): there is no quantity-to-base-unit conversion.
For a purchase of 2 kg at total price 10 the aggregator records the
per-unit price 10 / 2 = 5 (price per kilogram as entered), while the
claim's `purchasedPrice / toBaseQuantity(2, "kg")` would be
10 / 2000. -/
theorem no_base_conversion_cex :
    scanItem none none demoKgList demoKgItem =
      some ("rice::kg",
        { name := "Rice", unit := "kg", qty := 2, price := 10, unitPrice := some 5,
          store := none, date := 50, category := none })
    ∧ (5 : ℚ) ≠ 10 / 2000 := by
  with_unfolding_all decide

/-- C2 (amended): `mapUnit` only canonicalizes the unit's spelling —
kilograms stay `kg` (no factor 1000), liters stay `l`, slices become
`fatia` — quantities are stored as entered, and the aggregator's
per-unit price is `purchasedPrice / qty` in the item's own canonical
unit whenever `qty > 0` (and null otherwise); no `toBaseQuantity`
exists. -/
theorem unit_price_is_per_own_unit :
    mapUnit "kg" = "kg" ∧ mapUnit "l" = "l" ∧ mapUnit "slice" = "fatia"
    ∧ ∀ store since l it key r, scanItem store since l it = some (key, r) →
        r.qty = it.qty
        ∧ (0 < it.qty → r.unitPrice = some (it.purchasedPrice / it.qty)) := by
  refine ⟨by with_unfolding_all decide, by with_unfolding_all decide,
    by with_unfolding_all decide, fun store since l it key r h => ?_⟩
  simp only [scanItem] at h
  split_ifs at h
  all_goals
    simp only [Option.some.injEq, Prod.mk.injEq] at h
    obtain ⟨hk, hr⟩ := h
    subst hr
    refine ⟨rfl, fun hq => ?_⟩
    simp_all

/-- C2 (witness): applying the amended statement to the concrete 2 kg
purchase of `demoKgList` identifies its recorded unit price with the
per-kilogram quotient `10 / 2`. -/
theorem unit_price_is_per_own_unit_witness :
    ({ name := "Rice", unit := "kg", qty := 2, price := 10, unitPrice := some 5,
       store := none, date := 50, category := none } : HistoryRec).unitPrice
      = some (demoKgItem.purchasedPrice / demoKgItem.qty) :=
  (unit_price_is_per_own_unit.2.2.2 none none demoKgList demoKgItem "rice::kg"
    { name := "Rice", unit := "kg", qty := 2, price := 10, unitPrice := some 5,
      store := none, date := 50, category := none }
    (by with_unfolding_all decide)).2 (by with_unfolding_all decide)

/-- Rounding to two decimals is the identity on amounts that already
are an exact multiple of a cent. -/
theorem round2_exact (x : ℚ) (n : ℤ) (h : x * 100 = (n : ℚ)) : round2 x = x := by
  unfold round2
  rw [h, add_comm, Int.floor_add_int]
  have h0 : ⌊(1 / 2 : ℚ)⌋ = 0 := by
    rw [Int.floor_eq_zero_iff]
    constructor <;> norm_num
  rw [h0]
  have hx : x = (n : ℚ) / 100 := by
    field_simp
    linarith [h]
  rw [hx]
  push_cast
  ring

/-- With at least one valid record, `suggestPrice` is the rounded
product of the strategy's representative per-unit price and the wanted
quantity (with `0` replaced by `1`). -/
theorem suggestPrice_valid (records : List HistoryRec) (q : ℚ) (s : Strategy)
    (v0 : HistoryRec) (rest : List HistoryRec) (hv : validOf records = v0 :: rest) :
    suggestPrice records q s = round2 (repPrice records s * (if q = 0 then 1 else q)) := by
  simp only [suggestPrice, repPrice, hv]
  cases s <;> rfl

/-- The no-valid-record fallback of `suggestPrice` scales linearly in
the wanted quantity (for positive quantities), so doubling is exact
there. -/
theorem suggestPrice_fallback_doubles (records : List HistoryRec) (q : ℚ) (s : Strategy)
    (hv : validOf records = []) (hq : 0 < q) :
    suggestPrice records (2 * q) s = 2 * suggestPrice records q s := by
  have h1 : ¬(q ≤ 0) := not_le.mpr hq
  have h2 : ¬(2 * q ≤ 0) := by push_neg; linarith
  cases records with
  | nil =>
      simp only [suggestPrice, hv, List.head?]
      rw [if_neg h2, if_neg h1]
      simp
  | cons f tl =>
      simp only [suggestPrice, hv, List.head?]
      rw [if_neg h2, if_neg h1]
      by_cases hl : 0 < f.price
      · rw [if_pos hl, if_pos hl]
        ring
      · rw [if_neg hl, if_neg hl]
        ring

/-- Records whose valid per-unit prices are 1, 2 and 3 (most recent
first, as the aggregator hands them over). -/
def med3Recs : List HistoryRec :=
  [⟨"arroz", "kg", 1, 1, some 1, none, 300, none⟩,
   ⟨"arroz", "kg", 1, 2, some 2, none, 200, none⟩,
   ⟨"arroz", "kg", 1, 3, some 3, none, 100, none⟩]

/-- Records whose valid per-unit prices are 1, 2, 3 and 4. -/
def med4Recs : List HistoryRec :=
  [⟨"arroz", "kg", 1, 1, some 1, none, 400, none⟩,
   ⟨"arroz", "kg", 1, 2, some 2, none, 300, none⟩,
   ⟨"arroz", "kg", 1, 3, some 3, none, 200, none⟩,
   ⟨"arroz", "kg", 1, 4, some 4, none, 100, none⟩]

/-- C4 (counterexample): for valid per-unit prices [1, 2, 3] and wanted
quantity 3/1000 the median estimate is `round2 (2 · 3/1000) = 0.01`,
not `2 · 3/1000 = 0.006`: the claimed exact equality fails because the
estimate is rounded to two decimals (and a zero quantity would be
replaced by 1 rather than give 0). -/
theorem median_rounding_cex :
    suggestPrice med3Recs (3 / 1000) .median ≠ 2 * (3 / 1000) := by
  with_unfolding_all decide

/-- C4 (amended): for every record set with valid per-unit prices
exactly [1, 2, 3] the median estimate equals `round2 (2 · q)` — which
is `2 · q` whenever `2 · q` is a whole number of cents — with a zero
quantity replaced by 1; for [1, 2, 3, 4] it equals `round2 (5/2 · q)`
(the two middle values are averaged); and `median` is the strategy
used when none is specified. -/
theorem median_correct :
    (∀ (records : List HistoryRec) (q : ℚ),
        (validOf records).map (fun r => r.unitPrice.getD 0) = [1, 2, 3] →
        suggestPrice records q .median = round2 (2 * (if q = 0 then 1 else q)))
    ∧ (∀ (records : List HistoryRec) (q : ℚ),
        (validOf records).map (fun r => r.unitPrice.getD 0) = [1, 2, 3, 4] →
        suggestPrice records q .median = round2 (5 / 2 * (if q = 0 then 1 else q)))
    ∧ ∀ (records : List HistoryRec) (q : ℚ),
        suggestPrice records q = suggestPrice records q .median := by
  refine ⟨fun records q h => ?_, fun records q h => ?_, fun records q => rfl⟩
  · cases hv : validOf records with
    | nil => rw [hv] at h; simp at h
    | cons v0 rest =>
        rw [hv] at h
        simp only [suggestPrice, hv]
        rw [h]
        have hs : List.insertionSort (α := ℚ) (· ≤ ·) [1, 2, 3] = [1, 2, 3] := by decide
        rw [hs]
        norm_num
  · cases hv : validOf records with
    | nil => rw [hv] at h; simp at h
    | cons v0 rest =>
        rw [hv] at h
        simp only [suggestPrice, hv]
        rw [h]
        have hs : List.insertionSort (α := ℚ) (· ≤ ·) [1, 2, 3, 4] = [1, 2, 3, 4] := by
          decide
        rw [hs]
        norm_num

/-- C4 (witness): for quantity 10 the amended statement gives the
median estimates 20 over prices [1, 2, 3] and 25 over [1, 2, 3, 4]. -/
theorem median_correct_witness :
    suggestPrice med3Recs 10 .median = 20 ∧ suggestPrice med4Recs 10 .median = 25 := by
  constructor
  · have h := median_correct.1 med3Recs 10 (by with_unfolding_all decide)
    rw [h]
    with_unfolding_all decide
  · have h := median_correct.2.1 med4Recs 10 (by with_unfolding_all decide)
    rw [h]
    with_unfolding_all decide

/-- A record whose per-unit price of half a cent makes the 2-decimal
rounding lossy. -/
def halfCentRec : HistoryRec :=
  ⟨"ovos", "un", 1, 1 / 200, some (1 / 200), none, 0, none⟩

/-- C7 (counterexample): with one record at per-unit price 1/200 and
strategy `last`, the estimate for quantity 1 is round2(0.005) = 0.01
and for quantity 2 it is round2(0.01) = 0.01 — doubling the quantity
does not double the estimate, because each estimate is rounded to two
decimals. -/
theorem doubling_cex :
    suggestPrice [halfCentRec] 2 .last ≠ 2 * suggestPrice [halfCentRec] 1 .last := by
  with_unfolding_all decide

/-- C7 (amended): doubling the wanted quantity (unit held fixed: the
estimator takes no unit) doubles the estimate exactly whenever no
rounding loss occurs: always on the no-valid-record fallback path,
and on the normal path whenever the representative per-unit price
times the quantity is a whole number of cents. -/
theorem estimate_doubling :
    ∀ (records : List HistoryRec) (q : ℚ) (s : Strategy), 0 < q →
      (validOf records = [] ∨ ∃ n : ℤ, repPrice records s * q * 100 = (n : ℚ)) →
      suggestPrice records (2 * q) s = 2 * suggestPrice records q s := by
  intro records q s hq hcase
  cases hv : validOf records with
  | nil => exact suggestPrice_fallback_doubles records q s hv hq
  | cons v0 rest =>
      rcases hcase with h | ⟨n, hn⟩
      · rw [h] at hv; cases hv
      · have e1 := suggestPrice_valid records q s v0 rest hv
        have e2 := suggestPrice_valid records (2 * q) s v0 rest hv
        have hqne : ¬(q = 0) := ne_of_gt hq
        have h2qne : ¬(2 * q = 0) := by positivity
        rw [e1, e2, if_neg h2qne, if_neg hqne]
        have r1 : round2 (repPrice records s * q) = repPrice records s * q :=
          round2_exact _ n hn
        have r2 : round2 (repPrice records s * (2 * q)) = repPrice records s * (2 * q) :=
          round2_exact _ (2 * n) (by
            rw [show repPrice records s * (2 * q) * 100
                  = 2 * (repPrice records s * q * 100) from by ring, hn]
            push_cast
            ring)
        rw [r1, r2]
        ring

/-- A record with the whole-number per-unit price 3. -/
def wholeRec : HistoryRec := ⟨"arroz", "kg", 1, 3, some 3, none, 0, none⟩

set_option maxRecDepth 4000 in
/-- C7 (witness): at per-unit price 3 and quantity 2 (3·2·100 = 600
cents, no rounding loss) the doubling law holds concretely. -/
theorem estimate_doubling_witness :
    suggestPrice [wholeRec] (2 * 2) .last = 2 * suggestPrice [wholeRec] 2 .last :=
  estimate_doubling [wholeRec] 2 .last (by with_unfolding_all decide)
    (Or.inr ⟨600, by with_unfolding_all decide⟩)

/-- Generalized accumulator form of `sumBy` as a mapped sum. -/
theorem sumBy_go (items : List Item) (f : Item → ℚ) :
    ∀ a : ℚ, items.foldl (fun acc it => acc + f it) a = a + (items.map f).sum := by
  induction items with
  | nil => intro a; simp
  | cons x xs ih => intro a; simp [ih]; ring

/-- The route's `sum` fold equals the sum of the projected field. -/
theorem sumBy_eq_map_sum (items : List Item) (f : Item → ℚ) :
    sumBy items f = (items.map f).sum := by
  rw [sumBy, sumBy_go]
  ring

/-- The status produced by the summary, in guard form. -/
theorem summaryOf_status (l : ListDoc) :
    (summaryOf l).status =
      (if 0 < l.budget ∧ (l.alerts.errorPct.getD 1) * l.budget ≤ (summaryOf l).spent
       then BudgetStatus.over
       else if 0 < l.budget ∧ (l.alerts.warnPct.getD (8 / 10)) * l.budget ≤ (summaryOf l).spent
       then BudgetStatus.warn
       else BudgetStatus.ok) := rfl

/-- Budget 100, thresholds 0.8 / 1.0, one purchased item of the given
price: the threshold scenario of the summary. -/
def budgetScenario (spent : ℚ) : ListDoc :=
  { id := "B1", user := "u", budget := 100,
    alerts := { warnPct := some (8 / 10), errorPct := some 1, notify := true },
    items := [{ name := "compras", purchased := true, purchasedPrice := spent }],
    updatedAt := 0 }

/-- Zero budget with a large spend. -/
def zeroBudgetScenario : ListDoc :=
  { id := "B0", user := "u", budget := 0,
    alerts := { warnPct := some (8 / 10), errorPct := some 1, notify := true },
    items := [{ name := "compras", purchased := true, purchasedPrice := 500 }],
    updatedAt := 0 }

/-- C8: the budget summary returns planned = the sum of plannedPrice
over all items, spent = the sum of purchasedPrice over purchased items,
remaining = max(0, budget − spent), status `over` iff budget > 0 and
spent ≥ budget·overFraction, `warn` iff budget > 0 and spent lies in
the warn band below the over threshold, and `ok` whenever budget = 0;
concretely with budget 100, fractions 0.8/1.0: spent 85 warns, 100 is
over, 50 is ok, and a zero budget is always ok. -/
theorem summary_correct :
    (∀ l : ListDoc,
        (summaryOf l).planned = (l.items.map (·.plannedPrice)).sum
        ∧ (summaryOf l).spent = ((l.items.filter (·.purchased)).map (·.purchasedPrice)).sum
        ∧ (summaryOf l).remaining = max 0 (l.budget - (summaryOf l).spent)
        ∧ ((summaryOf l).status = .over ↔
            0 < l.budget ∧ l.budget * (l.alerts.errorPct.getD 1) ≤ (summaryOf l).spent)
        ∧ ((summaryOf l).status = .warn ↔
            0 < l.budget ∧ l.budget * (l.alerts.warnPct.getD (8 / 10)) ≤ (summaryOf l).spent
              ∧ (summaryOf l).spent < l.budget * (l.alerts.errorPct.getD 1))
        ∧ (l.budget = 0 → (summaryOf l).status = .ok))
    ∧ (summaryOf (budgetScenario 85)).status = .warn
    ∧ (summaryOf (budgetScenario 100)).status = .over
    ∧ (summaryOf (budgetScenario 50)).status = .ok
    ∧ (summaryOf zeroBudgetScenario).status = .ok := by
  refine ⟨fun l => ⟨sumBy_eq_map_sum _ _, sumBy_eq_map_sum _ _, rfl, ?_, ?_, ?_⟩,
    ?_, ?_, ?_, ?_⟩
  · rw [summaryOf_status]
    split_ifs with h1 h2
    · exact iff_of_true rfl ⟨h1.1, by rw [mul_comm]; exact h1.2⟩
    · exact iff_of_false (by simp) (fun hc => h1 ⟨hc.1, by rw [mul_comm]; exact hc.2⟩)
    · exact iff_of_false (by simp) (fun hc => h1 ⟨hc.1, by rw [mul_comm]; exact hc.2⟩)
  · rw [summaryOf_status]
    split_ifs with h1 h2
    · refine iff_of_false (by simp) (fun hc => absurd hc.2.2 (not_lt.mpr ?_))
      rw [mul_comm]
      exact h1.2
    · refine iff_of_true rfl ⟨h2.1, by rw [mul_comm]; exact h2.2, ?_⟩
      have hne : ¬((l.alerts.errorPct.getD 1) * l.budget ≤ (summaryOf l).spent) :=
        fun hx => h1 ⟨h2.1, hx⟩
      rw [mul_comm]
      exact not_le.mp hne
    · exact iff_of_false (by simp) (fun hc => h2 ⟨hc.1, by rw [mul_comm]; exact hc.2.1⟩)
  · intro h
    rw [summaryOf_status, if_neg, if_neg]
    · intro hc; rw [h] at hc; exact lt_irrefl 0 hc.1
    · intro hc; rw [h] at hc; exact lt_irrefl 0 hc.1
  all_goals with_unfolding_all decide

/-- C8 (witness): the only hypothesis of the statement — a zero budget
forces status ok — discharged at the concrete zero-budget list. -/
theorem summary_correct_witness :
    (summaryOf zeroBudgetScenario).status = .ok :=
  (summary_correct.1 zeroBudgetScenario).2.2.2.2.2 rfl

/-- A stored list owned by user bob. -/
def demoBobList : ListDoc :=
  { id := "LB", user := "bob",
    items := [{ name := "ovos", qty := 2, unit := "un", purchasedPrice := 4, purchased := true }],
    updatedAt := 10 }

/-- C9: when alice requests bob's list (or a nonexistent id), the
price-backfill route answers NotFound without touching the store — but
the budget-summary route does not: its handler signature omits `reply`
and line 576 reads `request.reply.notFound`, and a fastify request has
no `reply` property, so the summary of a missing/foreign list throws a
TypeError that surfaces as a 500 internal error instead of the 404 the
claim (and every sibling route) requires. -/
theorem ownership_divergence :
    summaryRoute [demoBobList] "alice" "LB" = .error .internalError
    ∧ (estimatePricesRoute [demoBobList] "alice" "LB" {} 0).2 = .error .notFound
    ∧ (estimatePricesRoute [demoBobList] "alice" "LB" {} 0).1 = [demoBobList]
    ∧ summaryRoute [demoBobList] "alice" "nope" = .error .internalError := by
  with_unfolding_all decide

/-- C10 (counterexample): patching only the name of an item whose
category is already set ("minha-categoria") silently replaces the
category with the keyword classification of the new name — the
already-set category does not survive a rename without an explicit
category. -/
theorem patch_reclassify_cex :
    (applyPatch { name := "bife", category := "minha-categoria" }
      { name := some "frango" }).category = "proteinas"
    ∧ "proteinas" ≠ "minha-categoria" := by
  with_unfolding_all decide

/-- C10 (amended): an item's category is preserved by a patch that
supplies neither name nor category, a supplied nonempty category always
wins, but a patch that supplies a nonempty name without a category
recomputes the category from the new name even when one was already
set; the backfill operation, by contrast, never touches a nonempty
category (it fills `categoryMode` only into empty ones). -/
theorem category_update_rules :
    (∀ (it : Item) (p : ItemPatch), p.name = none → p.category = none →
        (applyPatch it p).category = it.category)
    ∧ (∀ (it : Item) (p : ItemPatch) (c : String), p.category = some c → c ≠ "" →
        (applyPatch it p).category = c)
    ∧ (∀ (it : Item) (p : ItemPatch) (n : String), p.name = some n → n ≠ "" →
        p.category = none → (applyPatch it p).category = autoCategory n)
    ∧ (∀ (hist : List (String × Group)) (s : Strategy) (om : Bool) (it : Item),
        it.category ≠ "" → (backfillItem hist s om it).category = it.category) := by
  refine ⟨fun it p hn hc => ?_, fun it p c hc hcne => ?_, fun it p n hn hne hc => ?_,
    fun hist s om it h => ?_⟩
  · simp only [applyPatch, hn, hc, truthyOpt, truthyStr]
    split <;> rfl
  · have h2 : truthyOpt (some c) = true := by simp [truthyOpt, truthyStr, hcne]
    simp only [applyPatch, hc, h2, Bool.not_true, Bool.and_false, Option.getD_some,
      Bool.false_eq_true, if_false]
    split <;> rfl
  · have h1 : truthyOpt (some n) = true := by simp [truthyOpt, truthyStr, hne]
    have h2 : truthyOpt (none : Option String) = false := rfl
    simp only [applyPatch, hn, hc, h1, h2, Bool.not_false, Bool.and_self, if_true,
      Option.getD_some]
    split <;> rfl
  · unfold backfillItem
    split
    · rfl
    · split
      · rfl
      · split
        · rfl
        · simp [h]

/-- C10 (witness): at a concrete item with category "padaria", a
field-free patch preserves it, an explicit category wins, and a rename
triggers reclassification. -/
theorem category_update_rules_witness :
    (applyPatch { name := "pão", category := "padaria" } {}).category = "padaria"
    ∧ (applyPatch { name := "pão", category := "padaria" }
        { category := some "graos" }).category = "graos"
    ∧ (applyPatch { name := "pão", category := "padaria" }
        { name := some "frango" }).category = autoCategory "frango" := by
  refine ⟨?_, ?_, ?_⟩
  · exact (category_update_rules.1 _ _ rfl rfl).trans rfl
  · exact category_update_rules.2.1 _ _ "graos" rfl (by decide)
  · exact category_update_rules.2.2.1 _ _ "frango" rfl (by decide) rfl

/-- A purchased item with positive price but zero quantity. -/
def zeroQtyItem : Item :=
  { name := "ovos", qty := 0, unit := "un", purchasedPrice := 5, purchased := true }

/-- A stored list holding `zeroQtyItem`. -/
def zeroQtyList : ListDoc :=
  { id := "Z", user := "u", items := [zeroQtyItem], updatedAt := 0 }

/-- A purchased item with no store recorded. -/
def noStoreItem : Item :=
  { name := "leite", qty := 1, unit := "l", purchasedPrice := 2, purchased := true, store := "" }

/-- A stored list holding `noStoreItem`. -/
def noStoreList : ListDoc :=
  { id := "S", user := "u", items := [noStoreItem], updatedAt := 0 }

/-- C5 (counterexample): a purchased item with positive price but
qty = 0 still contributes a record even though the claim requires
qty > 0 (and claims base-quantity ≤ 0 records are skipped); moreover
under the store filter "Lidl" an item whose store field is empty — and
therefore does not match — still contributes, while the claim says
non-matching items are skipped. -/
theorem aggregation_filter_cex :
    (scanItem none none zeroQtyList zeroQtyItem).isSome = true
    ∧ ¬(0 < zeroQtyItem.qty)
    ∧ (scanItem (some "Lidl") none noStoreList noStoreItem).isSome = true
    ∧ noStoreItem.store ≠ "Lidl" ∧ noStoreItem.store = "" := by
  with_unfolding_all decide

/-- Contribution condition stated spec-style (flat conjunction): the
item is purchased with a nonempty trimmed name and a positive purchased
price, its effective date is not older than the recency cutoff, and
when both the store filter and the item's store are nonempty they agree
case-insensitively.  No condition on the quantity. -/
def contributesSpec (store : Option String) (since : Option Int) (l : ListDoc)
    (it : Item) : Prop :=
  it.purchased = true ∧
  jsTrim it.name ≠ "" ∧
  0 < it.purchasedPrice ∧
  (∀ s, since = some s → ¬(effectiveDate l it < s)) ∧
  (∀ st, store = some st → st ≠ "" → it.store ≠ "" → jsToLower it.store = jsToLower st)

/-- C5 (amended): an item contributes a history record iff it is
purchased with nonempty trimmed name and positive purchased price and
passes the recency and (empty-tolerant) store filters — qty > 0 is not
required; a contributing item with qty ≤ 0 yields a record whose unit
price is null rather than being skipped (no base-quantity conversion
or skip exists). -/
theorem aggregation_filter :
    (∀ store since l it,
        ((scanItem store since l it).isSome = true ↔ contributesSpec store since l it))
    ∧ (∀ store since l it key r, scanItem store since l it = some (key, r) →
        it.qty ≤ 0 → r.unitPrice = none) := by
  constructor
  · intro store since l it
    simp only [scanItem]
    split_ifs with h1 h2 h3 h4 h5
    · simp only [Option.isSome_none, Bool.false_eq_true, false_iff]
      intro hc
      rw [hc.1] at h1
      simp at h1
    · simp only [Option.isSome_none, Bool.false_eq_true, false_iff]
      intro hc
      exact hc.2.1 (by simpa using h2)
    · simp only [Option.isSome_none, Bool.false_eq_true, false_iff]
      intro hc
      cases hsince : since with
      | none => rw [hsince] at h3; simp [sinceHit] at h3
      | some s =>
          rw [hsince] at h3
          simp only [sinceHit, decide_eq_true_eq] at h3
          exact hc.2.2.2.1 s hsince h3
    · simp only [Option.isSome_none, Bool.false_eq_true, false_iff]
      intro hc
      cases hstore : store with
      | none => rw [hstore] at h4; simp [storeHit] at h4
      | some st =>
          rw [hstore] at h4
          simp only [storeHit, Bool.and_eq_true, Bool.not_eq_true', beq_eq_false_iff_ne,
            truthyStr, Bool.not_eq_eq_eq_not, Bool.not_true, beq_iff_eq] at h4
          obtain ⟨⟨hst, hrec⟩, hne⟩ := h4
          exact hne (hc.2.2.2.2 st hstore (by simpa using hst) (by simpa using hrec))
    · simp only [Option.isSome_none, Bool.false_eq_true, false_iff]
      intro hc
      exact absurd hc.2.2.1 (not_lt.mpr h5)
    all_goals
      simp only [Option.isSome_some, true_iff]
      refine ⟨by simpa using h1, by simpa using h2, not_le.mp h5, ?_, ?_⟩
      · intro s hs
        rw [hs] at h3
        simpa [sinceHit] using h3
      · intro st hs hstne hrecne
        rw [hs] at h4
        by_contra hne
        apply h4
        simp [storeHit, truthyStr, hstne, hrecne, hne]
  · intro store since l it key r h hq
    simp only [scanItem] at h
    split_ifs at h with g1 g2 g3 g4 g5 g6 g7 g8
    all_goals
      simp only [Option.some.injEq, Prod.mk.injEq] at h
      obtain ⟨hk, hr⟩ := h
      subst hr
    all_goals first
      | rfl
      | exact absurd g6 (not_lt.mpr hq)

/-- C5 (witness): the zero-quantity purchased item concretely satisfies
both parts: it contributes, and its record's unit price is null. -/
theorem aggregation_filter_witness :
    ({ name := "ovos", unit := "un", qty := 0, price := 5, unitPrice := none,
       store := none, date := 0, category := none } : HistoryRec).unitPrice = none ∧
    contributesSpec none none zeroQtyList zeroQtyItem := by
  constructor
  · exact aggregation_filter.2 none none zeroQtyList zeroQtyItem "ovos::un"
      { name := "ovos", unit := "un", qty := 0, price := 5, unitPrice := none,
        store := none, date := 0, category := none }
      (by with_unfolding_all decide) (by with_unfolding_all decide)
  · exact (aggregation_filter.1 none none zeroQtyList zeroQtyItem).mp
      (by with_unfolding_all decide)

/-- An item whose planned price is already positive is skipped by the
backfill loop (`onlyMissing = true`). -/
theorem backfillItem_skip (hist : List (String × Group)) (s : Strategy) (x : Item)
    (hx : 0 < x.plannedPrice) : backfillItem hist s true x = x := by
  unfold backfillItem
  rw [if_pos (by simp [hx])]

/-- Closed form of one backfill step on an item with an empty/zero
planned price whose history group exists and is nonempty. -/
theorem backfillItem_form (hist : List (String × Group)) (s : Strategy) (x : Item)
    (hx : ¬0 < x.plannedPrice) (g : Group)
    (hg : histGet hist (keyOf x.name x.unit) = some g)
    (he : ¬g.records.isEmpty = true) :
    backfillItem hist s true x =
      { x with
          plannedPrice := suggestPrice g.records (if x.qty = 0 then 1 else x.qty) s,
          category := if (x.category == "" && truthyOpt g.categoryMode) = true
                      then g.categoryMode.getD "" else x.category } := by
  unfold backfillItem
  rw [if_neg (by simpa using hx), hg]
  dsimp only
  rw [if_neg he]
  split
  · rfl
  · rfl

/-- One backfill step with `onlyMissing = true` is a fixed point after
one application: a skipped item stays itself, and a freshly estimated
item is either skipped on the second pass (positive price) or
re-estimated to the identical value from the identical group. -/
theorem backfillItem_fix (hist : List (String × Group)) (s : Strategy) (it : Item) :
    backfillItem hist s true (backfillItem hist s true it) = backfillItem hist s true it := by
  by_cases hp : 0 < it.plannedPrice
  · rw [backfillItem_skip hist s it hp]
    exact backfillItem_skip hist s it hp
  · cases hg : histGet hist (keyOf it.name it.unit) with
    | none =>
        have h1 : backfillItem hist s true it = it := by
          unfold backfillItem
          rw [if_neg (by simpa using hp), hg]
        rw [h1]; exact h1
    | some g =>
        by_cases he : g.records.isEmpty = true
        · have h1 : backfillItem hist s true it = it := by
            unfold backfillItem
            rw [if_neg (by simpa using hp), hg]
            dsimp only
            rw [if_pos he]
          rw [h1]; exact h1
        · have h1 := backfillItem_form hist s it hp g hg he
          rw [h1]
          by_cases hpp : 0 < suggestPrice g.records (if it.qty = 0 then 1 else it.qty) s
          · exact backfillItem_skip hist s _ hpp
          · have h2 := backfillItem_form hist s
              { it with
                  plannedPrice := suggestPrice g.records (if it.qty = 0 then 1 else it.qty) s,
                  category := if (it.category == "" && truthyOpt g.categoryMode) = true
                              then g.categoryMode.getD "" else it.category }
              hpp g hg he
            rw [h2]
            have hfalse :
                (({ it with
                    plannedPrice := suggestPrice g.records (if it.qty = 0 then 1 else it.qty) s,
                    category := if (it.category == "" && truthyOpt g.categoryMode) = true
                                then g.categoryMode.getD "" else it.category } : Item).category == ""
                  && truthyOpt g.categoryMode) = false := by
              dsimp only
              cases hmode : g.categoryMode with
              | none => simp [truthyOpt]
              | some m =>
                  by_cases hm : (m == "") = true
                  · simp [truthyOpt, truthyStr, hm]
                  · by_cases hic : (it.category == "") = true
                    · simp [truthyOpt, truthyStr, hm, hic]
                    · simp [truthyOpt, truthyStr, hm, hic]
            simp only [hfalse, Bool.false_eq_true, if_false]

/-- C6: running the price backfill twice in succession with
`onlyMissing = true` over the identical aggregated purchase history
leaves every item's plannedPrice at the value of the first run — the
second run skips items whose estimate is positive and deterministically
recomputes the same value for the rest, so there is no drift. -/
theorem backfill_idempotent :
    ∀ (hist : List (String × Group)) (s : Strategy) (items : List Item),
      (backfillItems hist s true (backfillItems hist s true items)).map (·.plannedPrice)
        = (backfillItems hist s true items).map (·.plannedPrice) := by
  intro hist s items
  simp only [backfillItems, List.map_map]
  congr 1
  funext x
  simp only [Function.comp]
  rw [backfillItem_fix]

/-- With `allowUnknown` false, the `unknown` list collects exactly the
plan's unresolved ingredients (trimmed name, canonical unit, quantity),
in plan order. -/
theorem synthesize_unknown_false (hist : List (String × Group)) (s : Strategy)
    (st : Option String) :
    ∀ plan, (synthesize hist false s st plan).2
      = (unresolved hist plan).map (fun i => ⟨jsTrim i.name, mapUnit i.unit, i.qty⟩) := by
  intro plan
  induction plan with
  | nil => rfl
  | cons i rest ih =>
      by_cases hno : noHistory hist i = true
      · simp only [synthesize, hno, if_true, Bool.not_false, unresolved, List.filter_cons,
          List.map_cons, if_true]
        simp only [unresolved] at ih
        simp [ih]
      · simp only [synthesize, Bool.not_eq_true] at hno ⊢
        simp only [hno, Bool.false_eq_true, if_false, unresolved, List.filter_cons]
        simp only [unresolved] at ih
        simp [hno, ih]

/-- With `allowUnknown` true nothing is collected as unknown. -/
theorem synthesize_unknown_true (hist : List (String × Group)) (s : Strategy)
    (st : Option String) :
    ∀ plan, (synthesize hist true s st plan).2 = [] := by
  intro plan
  induction plan with
  | nil => rfl
  | cons i rest ih =>
      by_cases hno : noHistory hist i = true
      · simp [synthesize, hno, ih]
      · simp [synthesize, hno, ih]

/-- Every plan ingredient becomes either an item or an unknown entry. -/
theorem synthesize_count (hist : List (String × Group)) (au : Bool) (s : Strategy)
    (st : Option String) :
    ∀ plan, (synthesize hist au s st plan).1.length + (synthesize hist au s st plan).2.length
      = plan.length := by
  intro plan
  induction plan with
  | nil => rfl
  | cons i rest ih =>
      by_cases hno : noHistory hist i = true <;> cases au <;>
        simp [synthesize, hno] <;> omega

/-- C3: meal-plan synthesis is all-or-nothing.  When `allowUnknown` is
false and at least one ingredient has no purchase-history group, the
stored collection is unchanged (no list is persisted) and the error
payload names exactly the unresolved ingredients; when every ingredient
resolves, or `allowUnknown` is true, exactly one new list is persisted
with one item per plan ingredient. -/
theorem mealplan_all_or_nothing :
    ∀ (db : List ListDoc) (uid : String) (req : MealPlanReq) (now : Int)
      (newId : String) (nowYear nowMonth : Int),
      (req.allowUnknown = false →
        unresolved (aggregateUserHistory db uid req.store req.days now) req.plan ≠ [] →
        (fromMealPlanRoute db uid req now newId nowYear nowMonth).1 = db
        ∧ (fromMealPlanRoute db uid req now newId nowYear nowMonth).2 =
            .error (.badRequest
              "Alguns itens do meal plan não existem no seu histórico de compras."
              ((unresolved (aggregateUserHistory db uid req.store req.days now) req.plan).map
                (fun i => ⟨jsTrim i.name, mapUnit i.unit, i.qty⟩))))
      ∧ ((req.allowUnknown = true ∨
            unresolved (aggregateUserHistory db uid req.store req.days now) req.plan = []) →
          ∃ created,
            (fromMealPlanRoute db uid req now newId nowYear nowMonth).1 = db ++ [created]
            ∧ (fromMealPlanRoute db uid req now newId nowYear nowMonth).2 = .ok created
            ∧ created.items.length = req.plan.length) := by
  intro db uid req now newId ny nm
  constructor
  · intro hau hun
    have h2 := synthesize_unknown_false (aggregateUserHistory db uid req.store req.days now)
      req.strategy req.store req.plan
    simp only [fromMealPlanRoute, hau]
    have hcond : (!(synthesize (aggregateUserHistory db uid req.store req.days now) false
        req.strategy req.store req.plan).2.isEmpty) = true := by
      rw [h2]
      rw [Bool.not_eq_true', List.isEmpty_eq_false]
      simpa using hun
    rw [if_pos hcond]
    exact ⟨rfl, by rw [h2]⟩
  · intro hok
    have hempty : (synthesize (aggregateUserHistory db uid req.store req.days now)
        req.allowUnknown req.strategy req.store req.plan).2 = [] := by
      rcases hok with hau | hnil
      · rw [hau]
        exact synthesize_unknown_true _ _ _ _
      · cases hau : req.allowUnknown with
        | false =>
            rw [synthesize_unknown_false, hnil]
            rfl
        | true => exact synthesize_unknown_true _ _ _ _
    simp only [fromMealPlanRoute]
    rw [if_neg (by rw [hempty]; simp)]
    refine ⟨_, rfl, rfl, ?_⟩
    dsimp only
    have hc := synthesize_count (aggregateUserHistory db uid req.store req.days now)
      req.allowUnknown req.strategy req.store req.plan
    rw [hempty] at hc
    simpa using hc

/-- A meal-plan request for 2 kg of rice by a user with no purchase
history. -/
def mpPlanReq : MealPlanReq := { plan := [⟨"arroz", 2, "kg", ""⟩], allowUnknown := false }

/-- C3 (witness): against an empty store, the rice request aborts with
exactly that ingredient named and persists nothing; flipping
`allowUnknown` to true persists one list with one item. -/
theorem mealplan_all_or_nothing_witness :
    (fromMealPlanRoute [] "alice" mpPlanReq 0 "N1" 2025 10).1 = []
    ∧ (fromMealPlanRoute [] "alice" mpPlanReq 0 "N1" 2025 10).2 =
        .error (.badRequest
          "Alguns itens do meal plan não existem no seu histórico de compras."
          [⟨"arroz", "kg", 2⟩])
    ∧ ∃ created,
        (fromMealPlanRoute [] "alice" { mpPlanReq with allowUnknown := true }
          0 "N1" 2025 10).1 = [] ++ [created]
        ∧ (fromMealPlanRoute [] "alice" { mpPlanReq with allowUnknown := true }
            0 "N1" 2025 10).2 = .ok created
        ∧ created.items.length = 1 := by
  have ha := (mealplan_all_or_nothing [] "alice" mpPlanReq 0 "N1" 2025 10).1 rfl
    (by with_unfolding_all decide)
  have hb := (mealplan_all_or_nothing [] "alice" { mpPlanReq with allowUnknown := true }
    0 "N1" 2025 10).2 (Or.inl rfl)
  refine ⟨ha.1, ?_, ?_⟩
  · rw [ha.2]
    with_unfolding_all decide
  · obtain ⟨c, h1, h2, h3⟩ := hb
    exact ⟨c, h1, h2, h3.trans rfl⟩

end FitnessApi
